import Mathlib

/-!
Verification development for the Docker Registry API v2 client
(`lib/registry-client-v2.js` of node-docker-registry-client).

The JavaScript source is shallowly embedded: buffers become `List Nat`
(byte lists), fallible code returns `Except RegErr`, and the external
crypto collaborators (`jwk-to-pem`, `jws.verify`, `crypto.createHash`)
are abstracted as a `CryptoOps` record of oracles, since they are
external dependencies, not code of this repository.  The `base64url`
dependency is modelled concretely so that the byte-splicing performed by
`_jwsFromManifest` is executable.  All definitions follow the source
line by line; modelling choices are noted in the doc comments.
-/

set_option autoImplicit false

namespace RegistryClientV2

/-- Bytes of a Node `Buffer`, as a list of naturals (each `< 256` in
well-formed data; the bound is irrelevant to the claims). -/
abbrev Bytes := List Nat

/-! ### Model of the external `base64url` library

`base64url.decode(s)` base64-decodes `s` (accepting both the URL-safe
and the standard alphabet, ignoring characters outside the alphabet,
as Node's base64 decoder does) and re-encodes through UTF-8; on valid
UTF-8 the round trip is the identity, so we model the byte content
directly.  `base64url(buf)` encodes bytes with the URL-safe alphabet
and no padding. -/

/-- 6-bit value of a base64 alphabet character (URL-safe `-`/`_` and
standard `+`/`/` both accepted); `none` for characters outside the
alphabet, which Node's decoder skips. -/
def b64Index (c : Char) : Option Nat :=
  if 'A' ≤ c ∧ c ≤ 'Z' then some (c.toNat - 65)
  else if 'a' ≤ c ∧ c ≤ 'z' then some (c.toNat - 97 + 26)
  else if '0' ≤ c ∧ c ≤ '9' then some (c.toNat - 48 + 52)
  else if c = '-' ∨ c = '+' then some 62
  else if c = '_' ∨ c = '/' then some 63
  else none

/-- Big-endian number of a list of bits. -/
def natOfBits (bs : List Bool) : Nat :=
  bs.foldl (fun a b => 2 * a + (if b then 1 else 0)) 0

/-- The six bits of a 6-bit group, most significant first. -/
def bitsOfSextet (n : Nat) : List Bool :=
  [n.testBit 5, n.testBit 4, n.testBit 3, n.testBit 2, n.testBit 1, n.testBit 0]

/-- The eight bits of a byte, most significant first. -/
def bitsOfByte (n : Nat) : List Bool :=
  [n.testBit 7, n.testBit 6, n.testBit 5, n.testBit 4,
   n.testBit 3, n.testBit 2, n.testBit 1, n.testBit 0]

/-- Regroup a bit stream into bytes, dropping trailing leftover bits
(as base64 decoding does). -/
def bytesOfBits : List Bool → Bytes
  | b0 :: b1 :: b2 :: b3 :: b4 :: b5 :: b6 :: b7 :: rest =>
      natOfBits [b0, b1, b2, b3, b4, b5, b6, b7] :: bytesOfBits rest
  | _ => []

/-- Decoder `base64url.decode`, to bytes (see the section comment). -/
def base64urlDecode (s : String) : Bytes :=
  bytesOfBits (((s.data.filterMap b64Index).map bitsOfSextet).flatten)

/-- Regroup a bit stream into 6-bit groups, zero-padding the final
group on the right (as base64 encoding does). -/
def sextetsOfBits : List Bool → List Nat
  | b0 :: b1 :: b2 :: b3 :: b4 :: b5 :: rest =>
      natOfBits [b0, b1, b2, b3, b4, b5] :: sextetsOfBits rest
  | [] => []
  | rest => [natOfBits (rest ++ List.replicate (6 - rest.length) false)]

/-- Character for a 6-bit value in the URL-safe base64 alphabet. -/
def b64urlChar (n : Nat) : Char :=
  if n < 26 then Char.ofNat (65 + n)
  else if n < 52 then Char.ofNat (97 + (n - 26))
  else if n < 62 then Char.ofNat (48 + (n - 52))
  else if n = 62 then '-'
  else '_'

/-- Encoder `base64url(buf)`: URL-safe base64 without padding. -/
def base64urlEncode (bs : Bytes) : String :=
  String.mk (((sextetsOfBits ((bs.map bitsOfByte).flatten)).map b64urlChar))

/-- Character for a 6-bit value in the standard base64 alphabet. -/
def b64stdChar (n : Nat) : Char :=
  if n < 26 then Char.ofNat (65 + n)
  else if n < 52 then Char.ofNat (97 + (n - 26))
  else if n < 62 then Char.ofNat (48 + (n - 52))
  else if n = 62 then '+'
  else '/'

/-- Encoder `buf.toString('base64')`: standard base64 with `=` padding, as used
by `_basicAuthHeader`. -/
def base64StdEncode (bs : Bytes) : String :=
  String.mk (((sextetsOfBits ((bs.map bitsOfByte).flatten)).map b64stdChar))
    ++ String.mk (List.replicate ((4 - (sextetsOfBits ((bs.map bitsOfByte).flatten)).length % 4) % 4) '=')

/-- UTF-8 encoding of one character. -/
def utf8EncodeCharBytes (c : Char) : Bytes :=
  let n := c.toNat
  if n < 0x80 then [n]
  else if n < 0x800 then [0xC0 + n / 64, 0x80 + n % 64]
  else if n < 0x10000 then [0xE0 + n / 4096, 0x80 + n / 64 % 64, 0x80 + n % 64]
  else [0xF0 + n / 0x40000, 0x80 + n / 4096 % 64, 0x80 + n / 64 % 64, 0x80 + n % 64]

/-- UTF-8 bytes of a string (`new Buffer(s, 'utf8')`). -/
def utf8Bytes (s : String) : Bytes :=
  (s.data.map utf8EncodeCharBytes).flatten

/-! ### Error kinds

The error taxonomy of the client, by constructor kind only (messages
are irrelevant to the claims).  `generic` is a plain `new Error(...)`;
`typeError` is a JavaScript `TypeError` thrown by library code (e.g.
`new Buffer(undefined)`). -/

/-- Error kinds raised by the client. -/
inductive RegErr where
  | invalidContent
  | badDigest
  | manifestVerification
  | internal
  | download
  | unauthorized
  | generic
  | typeError
  deriving DecidableEq, Repr

/-! ### External crypto collaborators -/

/-- Oracles for the external crypto libraries: `jwk-to-pem` (may throw),
`jws.verify` (compact serialization, algorithm, PEM key; the key is
`none` when the signature embedded no JWK), and `crypto.createHash`
(`hashSupported` is whether `createHash` succeeds for the algorithm,
`hashHex` the final hex digest of the hashed bytes). -/
structure CryptoOps where
  jwkToPem : String → Except Unit String
  jwsVerify : String → String → Option String → Bool
  hashSupported : String → Bool
  hashHex : String → Bytes → String

/-! ### Manifest data model -/

/-- The JSON object decoded from a signature's base64url `protected`
field: `{formatLength, formatTail, time}`.  `formatLength = none`
models a missing or non-numeric value (for which the source's
`isNaN(protectedHeader.formatLength)` is true); `formatTail = none`
models a missing value (`some ""` is also rejected by the source's
falsiness test). -/
structure ProtectedHeader where
  formatLength : Option Int
  formatTail : Option String
  deriving DecidableEq, Repr

/-- One entry of a manifest's `signatures` array.  `protectedRaw` is the
base64url string as received; `protectedParsed` is the result of
`JSON.parse(base64url.decode(protectedRaw))`, with `none` modelling a
parse failure.  `jwk` is the embedded JSON Web Key (kept abstract),
`chain` the `header.chain` cert chain (abstract, `none` when absent). -/
structure ManifestSignature where
  alg : String
  jwk : Option String
  chain : Option String
  signature : String
  protectedRaw : String
  protectedParsed : Option ProtectedHeader
  deriving DecidableEq, Repr

/-- A decoded v1 manifest.  `fsLayers` keeps only the `blobSum` of each
layer and `history` only the `v1Compatibility` string, the fields the
client inspects. -/
structure ManifestV1 where
  schemaVersion : Int
  name : String
  tag : String
  architecture : String
  fsLayers : List String
  history : List String
  signatures : List ManifestSignature
  deriving DecidableEq, Repr

/-- One signature of the reconstructed JWS (`jwsSig` in the source):
`jwkPem` is the PEM conversion of the embedded JWK (`none` when no JWK
was embedded). -/
structure JwsSig where
  alg : String
  chain : Option String
  jwkPem : Option String
  signature : String
  protectedRaw : String
  deriving DecidableEq, Repr

/-- The reconstructed JWS returned by `_jwsFromManifest`. -/
structure Jws where
  payload : Bytes
  signatures : List JwsSig
  deriving DecidableEq, Repr

/-- Node `body.slice(0, end)` for a buffer: a negative `end` counts from
the end of the buffer, and `end = none` (`undefined`) means the whole
buffer; out-of-range values clamp. -/
def jsSliceTo (body : Bytes) : Option Int → Bytes
  | none => body
  | some n => if n < 0 then body.take ((body.length + n).toNat) else body.take n.toNat

/-- The `formatLength` a signature carries, if any. -/
def sigFL (s : ManifestSignature) : Option Int :=
  s.protectedParsed.bind (·.formatLength)

/-- The decoded `formatTail` a signature carries, if any. -/
def sigTL (s : ManifestSignature) : Option Bytes :=
  (s.protectedParsed.bind (·.formatTail)).map base64urlDecode

/-- All signatures carry a `formatLength` and a `formatTail`, and agree
on the `formatLength` value and on the decoded `formatTail` bytes. -/
def carriesConsistent (sigs : List ManifestSignature) : Prop :=
  ∀ s ∈ sigs, (sigFL s).isSome ∧ (sigTL s).isSome ∧
    ∀ t ∈ sigs, sigFL s = sigFL t ∧ sigTL s = sigTL t

instance (sigs : List ManifestSignature) : Decidable (carriesConsistent sigs) := by
  unfold carriesConsistent; infer_instance

/-- Tail of the per-signature step of `_jwsFromManifest`: build the
`jwsSig` entry, converting an embedded JWK to PEM when present
(conversion failure → `InvalidContent`). -/
def sigJwkStep (co : CryptoOps) (sig : ManifestSignature) (flAcc : Int) (tlAcc : Bytes) :
    Except RegErr (Int × Bytes × JwsSig) :=
  match sig.jwk with
  | none => .ok (flAcc, tlAcc, ⟨sig.alg, sig.chain, none, sig.signature, sig.protectedRaw⟩)
  | some k =>
    match co.jwkToPem k with
    | .error _ => .error .invalidContent
    | .ok pem => .ok (flAcc, tlAcc, ⟨sig.alg, sig.chain, some pem, sig.signature, sig.protectedRaw⟩)

/-- Middle of the per-signature step of `_jwsFromManifest`: the
missing/non-string `formatTail` falsiness check, then store the
decoded tail into the accumulator (first signature) or compare with it
(later signatures, mismatch → `InvalidContent`). -/
def sigTailStep (co : CryptoOps) (tl? : Option Bytes) (sig : ManifestSignature)
    (ph : ProtectedHeader) (flAcc : Int) : Except RegErr (Int × Bytes × JwsSig) :=
  match ph.formatTail with
  | none => .error .invalidContent
  | some t =>
    if t = "" then .error .invalidContent
    else
      match tl? with
      | none => sigJwkStep co sig flAcc (base64urlDecode t)
      | some tl0 =>
        if base64urlDecode t ≠ tl0 then .error .invalidContent
        else sigJwkStep co sig flAcc tl0

/-- One iteration of the `_jwsFromManifest` loop, in source order: parse
`protected` (failure → `InvalidContent`), the `isNaN(formatLength)`
check, store-or-compare `formatLength`, then `sigTailStep`.  Returns
the updated accumulator values and the built `jwsSig`. -/
def sigStep (co : CryptoOps) (fl? : Option Int) (tl? : Option Bytes)
    (sig : ManifestSignature) : Except RegErr (Int × Bytes × JwsSig) :=
  match sig.protectedParsed with
  | none => .error .invalidContent
  | some ph =>
    match ph.formatLength with
    | none => .error .invalidContent
    | some fl =>
      match fl? with
      | none => sigTailStep co tl? sig ph fl
      | some fl0 =>
        if fl ≠ fl0 then .error .invalidContent
        else sigTailStep co tl? sig ph fl0

/-- The loop of `_jwsFromManifest` over `manifest.signatures`, carrying
the `formatLength` and decoded `formatTail` accumulators (`undefined`,
i.e. `none`, until the first signature stores them).  Returns the
built `jwsSig` list together with the final accumulator values; with
an empty list and unset accumulators the `typeError` result models
`new Buffer(undefined)` throwing in the payload splice that follows. -/
def jwsSigsGo (co : CryptoOps) :
    List ManifestSignature → Option Int → Option Bytes →
      Except RegErr (List JwsSig × Int × Bytes)
  | [], fl?, tl? =>
    match fl?, tl? with
    | some fl, some tl => .ok ([], fl, tl)
    | _, _ => .error .typeError
  | sig :: rest, fl?, tl? =>
    match sigStep co fl? tl? sig with
    | .error e => .error e
    | .ok (flAcc, tlAcc, jwsSig) =>
      match jwsSigsGo co rest (some flAcc) (some tlAcc) with
      | .error e => .error e
      | .ok (sigs, flF, tlF) => .ok (jwsSig :: sigs, flF, tlF)

/-- Function `_jwsFromManifest(manifest, body)`: run the signature loop, then
splice `payload = body.slice(0, formatLength) ++ new Buffer(formatTail)`.
With an empty `signatures` array both accumulators are still
`undefined` and `new Buffer(undefined)` throws a `TypeError`, which the
`typeError` result models. -/
def jwsFromManifest (co : CryptoOps) (manifest : ManifestV1) (body : Bytes) :
    Except RegErr Jws :=
  match jwsSigsGo co manifest.signatures none none with
  | .error e => .error e
  | .ok (sigs, fl, tl) => .ok ⟨jsSliceTo body (some fl) ++ tl, sigs⟩

/-! ### `Docker-Content-Digest` parsing and manifest digest check -/

/-- Split `strsplit(s, ':', 2)`: split on the first `:` only, so a
colon-free string yields one field. -/
def strsplit2 (s : String) : List String :=
  match s.data.findIdx? (· = ':') with
  | none => [s]
  | some i => [String.mk (s.data.take i), String.mk (s.data.drop (i + 1))]

/-- The result of `_parseDockerContentDigest`: the raw header, the
algorithm part and the expected hex digest (the incremental hasher is
represented by `algorithm` together with `CryptoOps.hashHex`). -/
structure DcdInfo where
  raw : String
  algorithm : String
  expectedDigest : String
  deriving DecidableEq, Repr

/-- Function `_parseDockerContentDigest(dcd)`: a missing (or falsy, i.e. empty)
header, a header without `:`, or an algorithm `crypto.createHash`
rejects all raise `BadDigest`. -/
def parseDockerContentDigest (co : CryptoOps) : Option String → Except RegErr DcdInfo
  | none => .error .badDigest
  | some s =>
    if s = "" then .error .badDigest
    else
      match strsplit2 s with
      | [a, hex] =>
        if co.hashSupported a then .ok ⟨s, a, hex⟩ else .error .badDigest
      | _ => .error .badDigest

/-- Function `_verifyManifestDockerContentDigest(res, jws)`: parse the response's
`docker-content-digest` header, hash the reconstructed payload and
compare the hex digests. -/
def verifyManifestDcd (co : CryptoOps) (dcdHeader : Option String) (jws : Jws) :
    Except RegErr Unit :=
  match parseDockerContentDigest co dcdHeader with
  | .error e => .error e
  | .ok info =>
    if info.expectedDigest ≠ co.hashHex info.algorithm jws.payload then .error .badDigest
    else .ok ()

/-! ### `_verifyJws` -/

/-- The loop of `_verifyJws` over `jws.signatures`: reject `alg` in the
deny-list `['none']` (`ManifestVerification`), reject a present
`header.chain` (`Internal`), then check the compact serialization
`protected + '.' + base64url(payload) + '.' + signature` with
`jws.verify` (failure → `ManifestVerification`). -/
def verifyJwsSigs (co : CryptoOps) (encodedPayload : String) :
    List JwsSig → Except RegErr Unit
  | [] => .ok ()
  | s :: rest =>
    if s.alg = "none" then .error .manifestVerification
    else if s.chain.isSome then .error .internal
    else if co.jwsVerify (s.protectedRaw ++ "." ++ encodedPayload ++ "." ++ s.signature)
        s.alg s.jwkPem then
      verifyJwsSigs co encodedPayload rest
    else .error .manifestVerification

/-- Function `_verifyJws(jws)`. -/
def verifyJws (co : CryptoOps) (jws : Jws) : Except RegErr Unit :=
  verifyJwsSigs co (base64urlEncode jws.payload) jws.signatures

/-! ### `getManifest` response validation -/

/-- How the `getManifest` callback chain ends, as observed by the
caller: `ok` passes the manifest to the callback with no error,
`cbErr` passes an error (the `next(verifyErr)` path), and `thrown`
models the `throw` statements of the source that fire *inside* the
HTTP-client callback — outside the `try/catch` — so the pipeline's
callback is never reached (the exception escapes to the runtime). -/
inductive GetManifestOutcome where
  | ok (m : ManifestV1)
  | cbErr (e : RegErr)
  | thrown (e : RegErr)
  deriving DecidableEq, Repr

/-- The validation performed by `getManifest` on a successful HTTP
response, given the decoded manifest, the raw body bytes and the
`docker-content-digest` response header: `_jwsFromManifest`,
`_verifyManifestDockerContentDigest` and `_verifyJws` inside the
`try/catch` (errors go to the callback), then the `schemaVersion`,
layer/history-length and non-empty-layers checks, whose failures are
`throw`n (not passed to `next`). -/
def getManifestValidate (co : CryptoOps) (manifest : ManifestV1) (body : Bytes)
    (dcdHeader : Option String) : GetManifestOutcome :=
  match jwsFromManifest co manifest body with
  | .error e => .cbErr e
  | .ok jws =>
    match verifyManifestDcd co dcdHeader jws with
    | .error e => .cbErr e
    | .ok () =>
      match verifyJws co jws with
      | .error e => .cbErr e
      | .ok () =>
        if manifest.schemaVersion ≠ 1 then .thrown .invalidContent
        else if manifest.fsLayers.length ≠ manifest.history.length then .thrown .invalidContent
        else if manifest.fsLayers.length = 0 then .thrown .invalidContent
        else .ok manifest

/-! ### Blob transport (`_headOrGetBlob`) -/

/-- One request issued by the blob loop: base URL, path and the
headers it was given (only `authorization` is relevant; the source
passes `self._headers` on the first request and *no* headers on
redirect requests). -/
structure BlobRequest where
  url : String
  path : String
  authorization : Option String
  deriving DecidableEq, Repr

/-- One response received by the blob loop.  `locationUrl`/`locationPath`
model `url.parse(res.headers.location)` split into origin and path (only
read on 302/307).  `dcdHeader` and `contentLength` are the
`docker-content-digest` and `content-length` headers consumed by
`createBlobReadStream`. -/
structure BlobResponse where
  statusCode : Nat
  locationUrl : String
  locationPath : String
  dcdHeader : Option String
  contentLength : Option String
  deriving DecidableEq, Repr

/-- Constant `MAX_NUM_REDIRS` from `_headOrGetBlob`. -/
def MAX_NUM_REDIRS : Nat := 3

/-- A redirect response per the source's test
`res.statusCode === 302 || res.statusCode === 307`. -/
def isRedirect (r : BlobResponse) : Bool :=
  r.statusCode = 302 || r.statusCode = 307

/-- What one call to `_headOrGetBlob` produced: the trace of issued
requests, the collected response chain `ress`, and whether the loop
ended in a terminal response or a `Download` error. -/
structure BlobFetchResult where
  requests : List BlobRequest
  ress : List BlobResponse
  outcome : Except RegErr Unit
  deriving Repr

/-- The `makeReq` recursion of `_headOrGetBlob`.  The registry and the
redirect targets are modelled by `server`, mapping the index of a
request (0-based, in issue order) to the response it receives.  `fuel`
is `MAX_NUM_REDIRS - numRedirs`: the source checks
`numRedirs >= MAX_NUM_REDIRS` *before* issuing the request (`fuel = 0`
here, yielding the `Download` error with the current request never
issued) and then increments `numRedirs` for *every* request, the first
included.  On a 302/307 response the next request is built from the
parsed `Location` with no headers at all. -/
def blobGo (server : Nat → BlobResponse) : Nat → Nat → BlobRequest → BlobFetchResult
  | 0, _, _ => ⟨[], [], .error .download⟩
  | fuel + 1, idx, req =>
    let res := server idx
    if isRedirect res then
      let rest := blobGo server fuel (idx + 1) ⟨res.locationUrl, res.locationPath, none⟩
      ⟨req :: rest.requests, res :: rest.ress, rest.outcome⟩
    else ⟨[req], [res], .ok ()⟩

/-- Function `_headOrGetBlob` after login: the first request goes to the
base URL and blob path with the cached `authorization` header. -/
def headOrGetBlob (server : Nat → BlobResponse) (authorization : Option String)
    (baseUrl blobPath : String) : BlobFetchResult :=
  blobGo server MAX_NUM_REDIRS 0 ⟨baseUrl, blobPath, authorization⟩

/-! ### `createBlobReadStream` stream verification -/

/-- JavaScript `Number()` restricted to the shapes a `Content-Length`
header takes: `Number('') === 0`, a decimal digit string is its value,
anything else is `NaN` (`none`); a missing header (`Number(undefined)`)
is also `NaN`. -/
def jsNumber : Option String → Option Int
  | none => none
  | some s =>
    if s = "" then some 0
    else if s.data.all Char.isDigit then
      some (s.data.foldl (fun a c => 10 * a + ((c.toNat : Int) - 48)) 0)
    else none

/-- The set-up part of `createBlobReadStream` once `_headOrGetBlob`
succeeded: read `docker-content-digest` from the *first* response; if
present (truthy), parse it (failure → `BadDigest`) and require it to
equal the requested digest (mismatch → `BadDigest`), producing the
hasher state `some dcdInfo`; if absent, no hasher (`none`). -/
def createBlobReadStreamSetup (co : CryptoOps) (digest : String)
    (ress : List BlobResponse) : Except RegErr (Option DcdInfo) :=
  match ress.head? with
  | none => .error .typeError
  | some first =>
    match first.dcdHeader with
    | none => .ok none
    | some h =>
      if h = "" then .ok none
      else
        match parseDockerContentDigest co (some h) with
        | .error _ => .error .badDigest
        | .ok info =>
          if info.raw ≠ digest then .error .badDigest else .ok (some info)

/-- The `'end'` handler of the blob stream: with `cLen =
Number(stream.headers['content-length'])` (headers of the *final*
response), `!isNaN(cLen) && numBytes !== cLen` emits a `Download`
error; *else* an active hasher whose final hex differs from the
expected hex emits `BadDigest`; otherwise no error.  `received` is the
concatenation of the streamed chunks, so `numBytes = received.length`
and the hasher's final hex is `hashHex` of `received`. -/
def blobStreamEndCheck (co : CryptoOps) (contentLength : Option String)
    (dcdInfo : Option DcdInfo) (received : Bytes) : Option RegErr :=
  match jsNumber contentLength with
  | some cLen =>
    if (received.length : Int) ≠ cLen then some .download
    else
      match dcdInfo with
      | some info =>
        if info.expectedDigest ≠ co.hashHex info.algorithm received then some .badDigest
        else none
      | none => none
  | none =>
    match dcdInfo with
    | some info =>
      if info.expectedDigest ≠ co.hashHex info.algorithm received then some .badDigest
      else none
    | none => none

/-! ### `_getToken` realm URL resolution -/

/-- A JavaScript word character (`\w` = `[A-Za-z0-9_]`). -/
def isWordChar (c : Char) : Bool :=
  ('A' ≤ c && c ≤ 'Z') || ('a' ≤ c && c ≤ 'z') || ('0' ≤ c && c ≤ '9') || c = '_'

/-- The scheme captured by `/^(\w+):\/\//.exec(tokenUrl)`: the maximal
leading run of word characters, provided it is non-empty and
immediately followed by `://` (since `:` is not a word character, the
greedy match without backtracking coincides with the regex). -/
def schemeMatch (s : String) : Option String :=
  let w := s.data.takeWhile isWordChar
  if w.length > 0 && (s.data.drop w.length).take 3 = [':', '/', '/'] then
    some (String.mk w)
  else none

/-- The realm-URL step of `_getToken`: no scheme → prepend `https://`
(`http://` when `insecure`); a scheme other than `http`/`https` → a
plain `new Error(...)` (note: *not* an `UnauthorizedError`); otherwise
the realm is used as is. -/
def getTokenRealmUrl (realm : String) (insecure : Bool) : Except RegErr String :=
  match schemeMatch realm with
  | none => .ok ((if insecure then "http" else "https") ++ "://" ++ realm)
  | some sch =>
    if sch = "http" ∨ sch = "https" then .ok realm else .error .generic

/-! ### `supportsV2` -/

/-- What `supportsV2` reads off the ping outcome: the response (absent
when the ping failed without a response) with its status code and
`docker-distribution-api-version` header.  The ping *error* is ignored
by the source entirely. -/
structure PingResponse where
  statusCode : Nat
  apiVersionHeader : Option String
  deriving DecidableEq, Repr

/-- JavaScript `header.split(/\s+/g)`: maximal whitespace runs are
separators; a leading or trailing run produces an empty-string
element. -/
def jsSplitWs (s : String) : List String :=
  let st := s.data.foldl
    (fun (st : List String × List Char × Bool) c =>
      if c.isWhitespace then
        if st.2.2 then st
        else (st.1 ++ [String.mk st.2.1.reverse], [], true)
      else (st.1, c :: st.2.1, false))
    ([], [], false)
  st.1 ++ [String.mk st.2.1.reverse]

/-- The decision of `supportsV2`: status 200 or 401, a truthy
`docker-distribution-api-version` header, and `'registry/2.0'` among
its whitespace-split tokens.  Any other case, a missing response
included, is `false`. -/
def supportsV2Decision (res : Option PingResponse) : Bool :=
  match res with
  | none => false
  | some r =>
    if r.statusCode = 200 || r.statusCode = 401 then
      match r.apiVersionHeader with
      | none => false
      | some h =>
        if h = "" then false
        else (jsSplitWs h).contains "registry/2.0"
    else false

/-- What `supportsV2` passes to its callback: always `null` for the
error (the ping error `err` is dropped), and the boolean decision. -/
def supportsV2Callback (_err : Option RegErr) (res : Option PingResponse) :
    Option RegErr × Bool :=
  (none, supportsV2Decision res)

/-! ### `_authHeaderFromAuthInfo` -/

/-- The auth state `{token?, username?, password?}` consulted by
`_authHeaderFromAuthInfo` (the source reads the three fields off one
object, whatever its tag). -/
structure AuthInfo where
  token : Option String
  username : Option String
  password : Option String
  deriving DecidableEq, Repr

/-- JavaScript truthiness of an optional string field: absent or empty
is falsy. -/
def truthy : Option String → Bool
  | none => false
  | some s => s ≠ ""

/-- Function `_basicAuthHeader(username, password)`. -/
def basicAuthHeader (username password : String) : String :=
  "Basic " ++ base64StdEncode (utf8Bytes (username ++ ":" ++ password))

/-- Function `_authHeaderFromAuthInfo(authInfo)`: Bearer if `token` is truthy,
else Basic if both `username` and `password` are truthy, else
`undefined`. -/
def authHeaderFromAuthInfo (a : AuthInfo) : Option String :=
  if truthy a.token then some ("Bearer " ++ a.token.getD "")
  else if truthy a.username && truthy a.password then
    some (basicAuthHeader (a.username.getD "") (a.password.getD ""))
  else none

/-! ### Concrete fixtures used by witnesses and counterexamples -/

/-- A registry behaviour answering three redirects and then a 200. -/
def server3Redirs : Nat → BlobResponse := fun n =>
  if n < 3 then ⟨302, "https://cdn.example.com", "/some/blob", none, none⟩
  else ⟨200, "", "", none, some "4"⟩

/-- Crypto oracles whose verification always succeeds and whose hashes
are constantly `"aa"`. -/
def coTrue : CryptoOps :=
  ⟨fun k => .ok k, fun _ _ _ => true, fun _ => true, fun _ _ => "aa"⟩

/-- A JWS whose only signature declares `alg = "none"`. -/
def jwsNoneFirst : Jws := ⟨[], [⟨"none", none, none, "s", "p"⟩]⟩

/-- A JWS whose first signature carries a cert chain and whose second
declares `alg = "none"`. -/
def jwsChainThenNone : Jws :=
  ⟨[], [⟨"ES256", some "certchain", some "pem", "s1", "p1"⟩,
    ⟨"none", none, none, "s2", "p2"⟩]⟩

/-- A one-entry response chain carrying a digest header and a
content length. -/
def ress1 : List BlobResponse := [⟨200, "", "", some "sha256:aa", some "3"⟩]

/-- A well-formed manifest signature: `protected` decodes to
`formatLength 2` and `formatTail "Cn0"`. -/
def sigC : ManifestSignature :=
  ⟨"ES256", some "k", none, "sv", "pr", some ⟨some 2, some "Cn0"⟩⟩

/-- A well-formed one-signature manifest. -/
def mC : ManifestV1 := ⟨1, "library/busybox", "latest", "amd64",
  ["sha256:l1"], ["h1"], [sigC]⟩

/-- A raw body for `mC`. -/
def bodyC : Bytes := [123, 10, 125]

/-- The JWS `_jwsFromManifest` reconstructs from `mC` and `bodyC`. -/
def jwsC : Jws := ⟨[123, 10, 10, 125], [⟨"ES256", none, some "k", "sv", "pr"⟩]⟩

/-- A signature declaring `formatLength 2`. -/
def sigA : ManifestSignature :=
  ⟨"ES256", none, none, "s1", "p1", some ⟨some 2, some "Cn0"⟩⟩

/-- A signature declaring `formatLength 3`, conflicting with `sigA`. -/
def sigB : ManifestSignature :=
  ⟨"ES256", none, none, "s2", "p2", some ⟨some 3, some "Cn0"⟩⟩

/-- A manifest whose two signatures disagree on `formatLength`. -/
def mC4 : ManifestV1 := ⟨1, "n", "t", "a", ["l"], ["h"], [sigA, sigB]⟩

/-! ## Helper lemmas about the `_jwsFromManifest` loop -/

theorem sigJwkStep_ok_acc (co : CryptoOps) (sig : ManifestSignature) (flAcc : Int)
    (tlAcc : Bytes) (fl : Int) (tl : Bytes) (js : JwsSig)
    (h : sigJwkStep co sig flAcc tlAcc = .ok (fl, tl, js)) : fl = flAcc ∧ tl = tlAcc := by
  unfold sigJwkStep at h
  cases hk : sig.jwk with
  | none => simp [hk] at h; exact ⟨h.1.symm, h.2.1.symm⟩
  | some k =>
    simp only [hk] at h
    cases hp : co.jwkToPem k with
    | error e => simp [hp] at h
    | ok pem => simp [hp] at h; exact ⟨h.1.symm, h.2.1.symm⟩

theorem sigJwkStep_error_kind (co : CryptoOps) (sig : ManifestSignature) (flAcc : Int)
    (tlAcc : Bytes) (e : RegErr)
    (h : sigJwkStep co sig flAcc tlAcc = .error e) : e = .invalidContent := by
  unfold sigJwkStep at h
  cases hk : sig.jwk with
  | none => simp [hk] at h
  | some k =>
    simp only [hk] at h
    cases hp : co.jwkToPem k with
    | error e₁ => simp [hp] at h; exact h.symm
    | ok pem => simp [hp] at h

theorem sigTailStep_ok_spec (co : CryptoOps) (tl? : Option Bytes)
    (sig : ManifestSignature) (ph : ProtectedHeader) (flAcc : Int)
    (fl : Int) (tl : Bytes) (js : JwsSig)
    (h : sigTailStep co tl? sig ph flAcc = .ok (fl, tl, js)) :
    fl = flAcc ∧ (∃ t, ph.formatTail = some t ∧ tl = base64urlDecode t) ∧
      ∀ b, tl? = some b → tl = b := by
  unfold sigTailStep at h
  cases ht : ph.formatTail with
  | none => rw [ht] at h; simp at h
  | some t =>
    rw [ht] at h; simp only [] at h
    by_cases he : t = ""
    · simp [he] at h
    · rw [if_neg he] at h
      cases htl : tl? with
      | none =>
        rw [htl] at h; simp only [] at h
        obtain ⟨h1, h2⟩ := sigJwkStep_ok_acc _ _ _ _ _ _ _ h
        exact ⟨h1, ⟨t, rfl, h2⟩, by intro b hb; cases hb⟩
      | some tl0 =>
        rw [htl] at h; simp only [] at h
        by_cases hd : base64urlDecode t = tl0
        · rw [if_neg (by simpa using hd)] at h
          obtain ⟨h1, h2⟩ := sigJwkStep_ok_acc _ _ _ _ _ _ _ h
          exact ⟨h1, ⟨t, rfl, h2.trans hd.symm⟩, by intro b hb; cases hb; exact h2⟩
        · rw [if_pos (by simpa using hd)] at h; simp at h

theorem sigTailStep_error_kind (co : CryptoOps) (tl? : Option Bytes)
    (sig : ManifestSignature) (ph : ProtectedHeader) (flAcc : Int) (e : RegErr)
    (h : sigTailStep co tl? sig ph flAcc = .error e) : e = .invalidContent := by
  unfold sigTailStep at h
  cases ht : ph.formatTail with
  | none => rw [ht] at h; simp at h; exact h.symm
  | some t =>
    rw [ht] at h; simp only [] at h
    by_cases he : t = ""
    · simp [he] at h; exact h.symm
    · rw [if_neg he] at h
      cases htl : tl? with
      | none => rw [htl] at h; exact sigJwkStep_error_kind _ _ _ _ _ h
      | some tl0 =>
        rw [htl] at h; simp only [] at h
        by_cases hd : base64urlDecode t = tl0
        · rw [if_neg (by simpa using hd)] at h
          exact sigJwkStep_error_kind _ _ _ _ _ h
        · rw [if_pos (by simpa using hd)] at h; simp at h; exact h.symm

theorem sigStep_ok_spec (co : CryptoOps) (fl? : Option Int) (tl? : Option Bytes)
    (sig : ManifestSignature) (fl : Int) (tl : Bytes) (js : JwsSig)
    (h : sigStep co fl? tl? sig = .ok (fl, tl, js)) :
    sigFL sig = some fl ∧ sigTL sig = some tl ∧
      (∀ a, fl? = some a → fl = a) ∧ ∀ b, tl? = some b → tl = b := by
  unfold sigStep at h
  cases hpp : sig.protectedParsed with
  | none => rw [hpp] at h; simp at h
  | some ph =>
    rw [hpp] at h; simp only [] at h
    cases hfl : ph.formatLength with
    | none => rw [hfl] at h; simp at h
    | some flv =>
      rw [hfl] at h; simp only [] at h
      cases hacc : fl? with
      | none =>
        rw [hacc] at h; simp only [] at h
        obtain ⟨h1, ⟨t, ht, htl⟩, h2⟩ := sigTailStep_ok_spec _ _ _ _ _ _ _ _ h
        refine ⟨?_, ?_, ?_, h2⟩
        · simp [sigFL, hpp, hfl, h1]
        · simp [sigTL, hpp, ht, htl]
        · intro a ha; cases ha
      | some fl0 =>
        rw [hacc] at h; simp only [] at h
        by_cases hv : flv = fl0
        · rw [if_neg (by simpa using hv)] at h
          obtain ⟨h1, ⟨t, ht, htl⟩, h2⟩ := sigTailStep_ok_spec _ _ _ _ _ _ _ _ h
          refine ⟨?_, ?_, ?_, h2⟩
          · simp [sigFL, hpp, hfl, hv, h1]
          · simp [sigTL, hpp, ht, htl]
          · intro a ha; cases ha; exact h1
        · rw [if_pos (by simpa using hv)] at h; simp at h

theorem sigStep_error_kind (co : CryptoOps) (fl? : Option Int) (tl? : Option Bytes)
    (sig : ManifestSignature) (e : RegErr)
    (h : sigStep co fl? tl? sig = .error e) : e = .invalidContent := by
  unfold sigStep at h
  cases hpp : sig.protectedParsed with
  | none => rw [hpp] at h; simp at h; exact h.symm
  | some ph =>
    rw [hpp] at h; simp only [] at h
    cases hfl : ph.formatLength with
    | none => rw [hfl] at h; simp at h; exact h.symm
    | some flv =>
      rw [hfl] at h; simp only [] at h
      cases hacc : fl? with
      | none => rw [hacc] at h; exact sigTailStep_error_kind _ _ _ _ _ _ h
      | some fl0 =>
        rw [hacc] at h; simp only [] at h
        by_cases hv : flv = fl0
        · rw [if_neg (by simpa using hv)] at h
          exact sigTailStep_error_kind _ _ _ _ _ _ h
        · rw [if_pos (by simpa using hv)] at h; simp at h; exact h.symm

theorem jwsSigsGo_ok_spec (co : CryptoOps) (sigs : List ManifestSignature) :
    ∀ (fl? : Option Int) (tl? : Option Bytes) (out : List JwsSig) (fl : Int) (tl : Bytes),
      jwsSigsGo co sigs fl? tl? = .ok (out, fl, tl) →
      (∀ a, fl? = some a → fl = a) ∧ (∀ b, tl? = some b → tl = b) ∧
        ∀ s ∈ sigs, sigFL s = some fl ∧ sigTL s = some tl := by
  induction sigs with
  | nil =>
    intro fl? tl? out fl tl h
    cases fl? <;> cases tl? <;> simp [jwsSigsGo] at h
    exact ⟨fun a ha => by cases ha; exact h.2.1.symm,
      fun b hb => by cases hb; exact h.2.2.symm, by simp⟩
  | cons sig rest ih =>
    intro fl? tl? out fl tl h
    unfold jwsSigsGo at h
    cases hs : sigStep co fl? tl? sig with
    | error e => rw [hs] at h; simp at h
    | ok v =>
      obtain ⟨flA, tlA, js⟩ := v
      rw [hs] at h; simp only [] at h
      cases hr : jwsSigsGo co rest (some flA) (some tlA) with
      | error e => rw [hr] at h; simp at h
      | ok w =>
        obtain ⟨sigs', flF, tlF⟩ := w
        rw [hr] at h; simp only [] at h
        simp at h
        obtain ⟨hout, hfl, htl⟩ := h
        obtain ⟨ihA, ihB, ihC⟩ := ih (some flA) (some tlA) sigs' flF tlF hr
        obtain ⟨s1, s2, s3, s4⟩ := sigStep_ok_spec _ _ _ _ _ _ _ hs
        have hflA : flF = flA := ihA flA rfl
        have htlA : tlF = tlA := ihB tlA rfl
        subst hfl htl
        refine ⟨fun a ha => by rw [hflA, s3 a ha], fun b hb => by rw [htlA, s4 b hb], ?_⟩
        intro s hmem
        rcases List.mem_cons.mp hmem with hcase | hcase
        · subst hcase; exact ⟨by rw [s1, hflA], by rw [s2, htlA]⟩
        · exact ihC s hcase

theorem jwsSigsGo_error_kind (co : CryptoOps) (sigs : List ManifestSignature) :
    ∀ (fl? : Option Int) (tl? : Option Bytes) (e : RegErr),
      (sigs ≠ [] ∨ (fl?.isSome ∧ tl?.isSome)) →
      jwsSigsGo co sigs fl? tl? = .error e → e = .invalidContent := by
  induction sigs with
  | nil =>
    intro fl? tl? e hne h
    rcases hne with hne | ⟨h1, h2⟩
    · exact absurd rfl hne
    · cases fl? <;> cases tl? <;> simp_all [jwsSigsGo]
  | cons sig rest ih =>
    intro fl? tl? e _ h
    unfold jwsSigsGo at h
    cases hs : sigStep co fl? tl? sig with
    | error e₁ =>
      rw [hs] at h; simp only [] at h
      injection h with h2
      rw [← h2]
      exact sigStep_error_kind _ _ _ _ _ hs
    | ok v =>
      obtain ⟨flA, tlA, js⟩ := v
      rw [hs] at h; simp only [] at h
      cases hr : jwsSigsGo co rest (some flA) (some tlA) with
      | error e₁ =>
        rw [hr] at h; simp only [] at h
        injection h with h2
        rw [← h2]
        exact ih (some flA) (some tlA) e₁ (Or.inr ⟨rfl, rfl⟩) hr
      | ok w => obtain ⟨sigs', flF, tlF⟩ := w; rw [hr] at h; simp at h

theorem jwsFromManifest_ok_spec (co : CryptoOps) (m : ManifestV1) (body : Bytes)
    (jws : Jws) (h : jwsFromManifest co m body = .ok jws) :
    ∃ fl tl, (∀ s ∈ m.signatures, sigFL s = some fl ∧ sigTL s = some tl) ∧
      jws.payload = jsSliceTo body (some fl) ++ tl := by
  unfold jwsFromManifest at h
  cases hg : jwsSigsGo co m.signatures none none with
  | error e => rw [hg] at h; simp at h
  | ok v =>
    obtain ⟨sigs, fl, tl⟩ := v
    rw [hg] at h; simp only [] at h
    simp at h
    obtain ⟨_, _, hmem⟩ := jwsSigsGo_ok_spec co m.signatures none none sigs fl tl hg
    exact ⟨fl, tl, hmem, by rw [← h]⟩

theorem jwsFromManifest_error_kind (co : CryptoOps) (m : ManifestV1) (body : Bytes)
    (e : RegErr) (hne : m.signatures ≠ []) (h : jwsFromManifest co m body = .error e) :
    e = .invalidContent := by
  unfold jwsFromManifest at h
  cases hg : jwsSigsGo co m.signatures none none with
  | error e₁ =>
    rw [hg] at h; simp only [] at h
    injection h with h2
    rw [← h2]
    exact jwsSigsGo_error_kind co m.signatures none none e₁ (Or.inl hne) hg
  | ok v => obtain ⟨sigs, fl, tl⟩ := v; rw [hg] at h; simp at h

/-! ## Helper lemmas about `_verifyJws` -/

theorem verifyJwsSigs_ok_spec (co : CryptoOps) (enc : String) (sigs : List JwsSig)
    (h : verifyJwsSigs co enc sigs = .ok ()) :
    ∀ s ∈ sigs, s.alg ≠ "none" ∧ s.chain = none ∧
      co.jwsVerify (s.protectedRaw ++ "." ++ enc ++ "." ++ s.signature) s.alg s.jwkPem
        = true := by
  induction sigs with
  | nil => simp
  | cons s rest ih =>
    unfold verifyJwsSigs at h
    by_cases ha : s.alg = "none"
    · simp [ha] at h
    · rw [if_neg ha] at h
      by_cases hc : s.chain.isSome
      · simp [hc] at h
      · rw [if_neg hc] at h
        by_cases hv : co.jwsVerify (s.protectedRaw ++ "." ++ enc ++ "." ++ s.signature)
            s.alg s.jwkPem
        · rw [if_pos hv] at h
          intro t hmem
          rcases List.mem_cons.mp hmem with hcase | hcase
          · subst hcase
            exact ⟨ha, Option.not_isSome_iff_eq_none.mp hc, hv⟩
          · exact ih h t hcase
        · simp [hv] at h

/-! ## Helper lemmas about the blob redirect loop -/

theorem blobGo_ress_length (server : Nat → BlobResponse) :
    ∀ (fuel idx : Nat) (req : BlobRequest),
      (blobGo server fuel idx req).ress.length ≤ fuel := by
  intro fuel
  induction fuel with
  | zero => intro idx req; simp [blobGo]
  | succ n ih =>
    intro idx req
    by_cases hr : isRedirect (server idx)
    · simpa [blobGo, hr] using ih (idx + 1) ⟨(server idx).locationUrl,
        (server idx).locationPath, none⟩
    · simp [blobGo, hr]

theorem blobGo_download_iff (server : Nat → BlobResponse) :
    ∀ (fuel idx : Nat) (req : BlobRequest),
      ((blobGo server fuel idx req).outcome = .error .download ↔
        ∀ k < fuel, isRedirect (server (idx + k))) := by
  intro fuel
  induction fuel with
  | zero => intro idx req; simp [blobGo]
  | succ n ih =>
    intro idx req
    by_cases hr : isRedirect (server idx)
    · rw [show (blobGo server (n + 1) idx req).outcome
          = (blobGo server n (idx + 1) ⟨(server idx).locationUrl,
              (server idx).locationPath, none⟩).outcome by simp [blobGo, hr]]
      rw [ih (idx + 1) ⟨(server idx).locationUrl, (server idx).locationPath, none⟩]
      constructor
      · intro hall k hk
        rcases Nat.eq_zero_or_pos k with h0 | hpos
        · simpa [h0] using hr
        · obtain ⟨j, rfl⟩ := Nat.exists_eq_add_of_le hpos
          have := hall j (by omega)
          simpa [show idx + 1 + j = idx + (1 + j) by omega] using this
      · intro hall k hk
        have := hall (k + 1) (by omega)
        simpa [show idx + (k + 1) = idx + 1 + k by omega] using this
    · constructor
      · intro hout
        simp [blobGo, hr] at hout
      · intro hall
        have := hall 0 (by omega)
        simp at this
        exact absurd this hr

theorem blobGo_requests_auth (server : Nat → BlobResponse) :
    ∀ (fuel idx : Nat) (req : BlobRequest) (r : BlobRequest),
      r ∈ (blobGo server fuel idx req).requests → r = req ∨ r.authorization = none := by
  intro fuel
  induction fuel with
  | zero => intro idx req r hmem; simp [blobGo] at hmem
  | succ n ih =>
    intro idx req r hmem
    by_cases hr : isRedirect (server idx)
    · simp [blobGo, hr] at hmem
      rcases hmem with hcase | hcase
      · exact Or.inl hcase
      · rcases ih (idx + 1) ⟨(server idx).locationUrl, (server idx).locationPath, none⟩
          r hcase with hcase2 | hcase2
        · exact Or.inr (by rw [hcase2])
        · exact Or.inr hcase2
    · simp [blobGo, hr] at hmem
      exact Or.inl hmem

theorem blobGo_requests_head (server : Nat → BlobResponse) (fuel idx : Nat)
    (req : BlobRequest) (h : fuel ≠ 0) :
    (blobGo server fuel idx req).requests.head? = some req := by
  cases fuel with
  | zero => exact absurd rfl h
  | succ n => by_cases hr : isRedirect (server idx) <;> simp [blobGo, hr]

theorem blobGo_requests_tail_auth (server : Nat → BlobResponse) (fuel idx : Nat)
    (req r : BlobRequest) (hmem : r ∈ (blobGo server fuel idx req).requests.tail) :
    r.authorization = none := by
  cases fuel with
  | zero => simp [blobGo] at hmem
  | succ n =>
    by_cases hr : isRedirect (server idx)
    · simp [blobGo, hr] at hmem
      rcases blobGo_requests_auth server n (idx + 1)
          ⟨(server idx).locationUrl, (server idx).locationPath, none⟩ r hmem with hc | hc
      · rw [hc]
      · exact hc
    · simp [blobGo, hr] at hmem

/-! ## Claim theorems -/

/-- Claim C1, counterexample: a registry that answers three consecutive
redirects and then a 200 does *not* produce a four-entry response chain
ending in the 200 — the redirect counter counts the first request too,
so the operation fails with a `Download` error after only three
responses (two redirects followed). -/
theorem headOrGetBlob_three_redirects_then_200_fails :
    (headOrGetBlob server3Redirs (some "Bearer t") "https://registry-1.docker.io"
        "/v2/library/busybox/blobs/sha256:d1").outcome = .error .download ∧
      (headOrGetBlob server3Redirs (some "Bearer t") "https://registry-1.docker.io"
        "/v2/library/busybox/blobs/sha256:d1").ress.length = 3 :=
  ⟨rfl, rfl⟩

/-- Claim C1 (amended): because `numRedirs` is incremented for every
request including the first, `_headOrGetBlob` issues at most
`MAX_NUM_REDIRS = 3` requests: the ResponseChain has at most 3 entries
(1 + up to 2 followed redirects), and the operation fails with the
`Download` ("maximum number of redirects") error exactly when the first
three responses are all redirects (302/307). -/
theorem headOrGetBlob_redirect_budget (server : Nat → BlobResponse)
    (auth : Option String) (base path : String) :
    (headOrGetBlob server auth base path).ress.length ≤ MAX_NUM_REDIRS ∧
      ((headOrGetBlob server auth base path).outcome = .error .download ↔
        isRedirect (server 0) ∧ isRedirect (server 1) ∧ isRedirect (server 2)) := by
  constructor
  · exact blobGo_ress_length server MAX_NUM_REDIRS 0 _
  · rw [headOrGetBlob, blobGo_download_iff server MAX_NUM_REDIRS 0 _]
    constructor
    · intro hall
      exact ⟨by simpa using hall 0 (by decide), by simpa using hall 1 (by decide),
        by simpa using hall 2 (by decide)⟩
    · rintro ⟨h0, h1, h2⟩ k hk
      have hk3 : k < 3 := hk
      interval_cases k
      · simpa using h0
      · simpa using h1
      · simpa using h2

/-- Claim C5: in the request trace of a blob HEAD/GET, only the first
request carries the cached headers (hence the `Authorization` header);
every redirect-following request is issued with no headers, so its
`authorization` is absent. -/
theorem headOrGetBlob_auth_only_first (server : Nat → BlobResponse)
    (auth : Option String) (base path : String) :
    (headOrGetBlob server auth base path).requests.head? = some ⟨base, path, auth⟩ ∧
      ∀ r ∈ (headOrGetBlob server auth base path).requests.tail,
        r.authorization = none := by
  exact ⟨blobGo_requests_head server MAX_NUM_REDIRS 0 _ (by decide),
    fun r hmem => blobGo_requests_tail_auth server MAX_NUM_REDIRS 0 _ r hmem⟩

/-- Claim C7, counterexample: a realm whose scheme is neither `http`
nor `https` makes `_getToken` fail, but with a plain `new Error(...)`,
not with an `UnauthorizedError` as the claim states (the two
surrounding failure paths of `_getToken` do use `UnauthorizedError`). -/
theorem getTokenRealmUrl_ftp_not_unauthorized :
    getTokenRealmUrl "ftp://auth.example.com" false = .error .generic ∧
      getTokenRealmUrl "ftp://auth.example.com" false ≠ .error .unauthorized := by
  constructor
  · rfl
  · intro h
    rw [show getTokenRealmUrl "ftp://auth.example.com" false = .error .generic
      from rfl] at h
    simp at h

/-- Claim C7 (amended): when the realm URL lacks a scheme,
`https://` is prepended (`http://` if `insecure`); when the realm URL
has a scheme that is neither `http` nor `https`, the token fetch fails
with a plain generic `Error` (not an `UnauthorizedError`). -/
theorem getTokenRealmUrl_spec (realm : String) (insecure : Bool) :
    (schemeMatch realm = none →
      getTokenRealmUrl realm insecure
        = .ok ((if insecure then "http" else "https") ++ "://" ++ realm)) ∧
      (∀ sch, schemeMatch realm = some sch → sch ≠ "http" → sch ≠ "https" →
        getTokenRealmUrl realm insecure = .error .generic) ∧
      ∀ sch, schemeMatch realm = some sch → (sch = "http" ∨ sch = "https") →
        getTokenRealmUrl realm insecure = .ok realm := by
  refine ⟨fun h => ?_, fun sch hs h1 h2 => ?_, fun sch hs h12 => ?_⟩
  · rw [getTokenRealmUrl, h]
  · rw [getTokenRealmUrl, hs]
    simp only []
    rw [if_neg (by simpa using ⟨h1, h2⟩)]
  · rw [getTokenRealmUrl, hs]
    simp only []
    rw [if_pos h12]

theorem getTokenRealmUrl_spec_witness :
    schemeMatch "auth.docker.io/token" = none ∧
      getTokenRealmUrl "auth.docker.io/token" false
        = .ok ("https" ++ "://" ++ "auth.docker.io/token") ∧
      schemeMatch "ftp://auth.example.com" = some "ftp" ∧
      getTokenRealmUrl "ftp://auth.example.com" true = .error .generic :=
  ⟨by decide,
    (getTokenRealmUrl_spec "auth.docker.io/token" false).1 (by decide),
    by decide,
    (getTokenRealmUrl_spec "ftp://auth.example.com" true).2.1 "ftp" (by decide)
      (by decide) (by decide)⟩

/-- Claim C8: `supportsV2` calls back with no error in every case, and
with `true` exactly when the ping produced a response whose status code
is 200 or 401 and whose `docker-distribution-api-version` header,
split on whitespace runs, contains the token `registry/2.0`; the ping
error itself is ignored. -/
theorem supportsV2_spec (err : Option RegErr) (res : Option PingResponse) :
    (supportsV2Callback err res).1 = none ∧
      ((supportsV2Callback err res).2 = true ↔
        ∃ r, res = some r ∧ (r.statusCode = 200 ∨ r.statusCode = 401) ∧
          ∃ hd, r.apiVersionHeader = some hd ∧ "registry/2.0" ∈ jsSplitWs hd) := by
  refine ⟨rfl, ?_⟩
  show supportsV2Decision res = true ↔ _
  cases res with
  | none => simp [supportsV2Decision]
  | some r =>
    rw [supportsV2Decision]
    by_cases hsc : r.statusCode = 200 ∨ r.statusCode = 401
    · rw [if_pos (by simpa using hsc)]
      cases hh : r.apiVersionHeader with
      | none => simp [hsc, hh]
      | some hd =>
        simp only []
        by_cases he : hd = ""
        · subst he
          simp only [if_pos rfl]
          constructor
          · intro h; cases h
          · rintro ⟨r₁, hr₁, _, hd₁, hhd₁, hmem⟩
            cases hr₁
            rw [hh] at hhd₁
            cases hhd₁
            revert hmem
            decide
        · rw [if_neg he]
          constructor
          · intro h
            exact ⟨r, rfl, hsc, hd, hh, by simpa using h⟩
          · rintro ⟨r₁, hr₁, _, hd₁, hhd₁, hmem⟩
            cases hr₁
            rw [hh] at hhd₁
            cases hhd₁
            simpa using hmem
    · rw [if_neg (by simpa using hsc)]
      constructor
      · intro h; cases h
      · rintro ⟨r₁, hr₁, hsc₁, _⟩
        cases hr₁
        exact absurd hsc₁ hsc

/-- Claim C10: `_authHeaderFromAuthInfo` gives Bearer precedence — a
truthy `token` yields `Bearer <token>` even when username and password
are also set; otherwise truthy `username` and `password` yield
`Basic <base64(username:password)>`; otherwise (username without
password included) no authorization header is produced. -/
theorem authHeaderFromAuthInfo_spec (a : AuthInfo) :
    (∀ t, a.token = some t → t ≠ "" →
      authHeaderFromAuthInfo a = some ("Bearer " ++ t)) ∧
      (truthy a.token = false → ∀ u p, a.username = some u → u ≠ "" →
        a.password = some p → p ≠ "" →
        authHeaderFromAuthInfo a = some (basicAuthHeader u p)) ∧
      (truthy a.token = false →
        (truthy a.username = false ∨ truthy a.password = false) →
        authHeaderFromAuthInfo a = none) := by
  refine ⟨fun t ht hne => ?_, fun htok u p hu hune hp hpne => ?_, fun htok hup => ?_⟩
  · rw [authHeaderFromAuthInfo, if_pos (by simp [truthy, ht, hne]), ht]
    rfl
  · rw [authHeaderFromAuthInfo, if_neg (by simp [htok]),
      if_pos (by simp [truthy, hu, hune, hp, hpne]), hu, hp]
    rfl
  · rw [authHeaderFromAuthInfo, if_neg (by simp [htok]), if_neg ?_]
    rcases hup with h | h <;> simp [h]

theorem authHeaderFromAuthInfo_spec_witness :
    authHeaderFromAuthInfo ⟨some "tok", some "u", some "p"⟩
        = some ("Bearer " ++ "tok") ∧
      authHeaderFromAuthInfo ⟨none, some "u", some "p"⟩
        = some (basicAuthHeader "u" "p") ∧
      authHeaderFromAuthInfo ⟨none, some "u", none⟩ = none :=
  ⟨(authHeaderFromAuthInfo_spec ⟨some "tok", some "u", some "p"⟩).1 "tok" rfl
      (by decide),
    (authHeaderFromAuthInfo_spec ⟨none, some "u", some "p"⟩).2.1 (by decide)
      "u" "p" rfl (by decide) rfl (by decide),
    (authHeaderFromAuthInfo_spec ⟨none, some "u", none⟩).2.2 (by decide)
      (Or.inr (by decide))⟩

theorem verifyJwsSigs_alg_none (co : CryptoOps) (enc : String) :
    ∀ sigs : List JwsSig, (∃ s ∈ sigs, s.alg = "none") →
      verifyJwsSigs co enc sigs ≠ .ok () ∧
        (verifyJwsSigs co enc sigs = .error .manifestVerification ∨
          verifyJwsSigs co enc sigs = .error .internal) ∧
        ((∀ s ∈ sigs, s.chain = none) →
          verifyJwsSigs co enc sigs = .error .manifestVerification) := by
  intro sigs
  induction sigs with
  | nil => rintro ⟨s, hmem, _⟩; simp at hmem
  | cons s rest ih =>
    rintro ⟨t, hmem, halg⟩
    by_cases ha : s.alg = "none"
    · have heq : verifyJwsSigs co enc (s :: rest) = .error .manifestVerification := by
        unfold verifyJwsSigs; rw [if_pos ha]
      rw [heq]
      exact ⟨by simp, Or.inl rfl, fun _ => rfl⟩
    · have hrest : ∃ u ∈ rest, u.alg = "none" := by
        rcases List.mem_cons.mp hmem with hc | hc
        · exact absurd (hc ▸ halg) ha
        · exact ⟨t, hc, halg⟩
      by_cases hc : s.chain.isSome
      · have heq : verifyJwsSigs co enc (s :: rest) = .error .internal := by
          unfold verifyJwsSigs; rw [if_neg ha, if_pos hc]
        rw [heq]
        refine ⟨by simp, Or.inr rfl, fun hall => ?_⟩
        have hnone := hall s (List.mem_cons_self s rest)
        rw [hnone] at hc
        simp at hc
      · by_cases hv : co.jwsVerify (s.protectedRaw ++ "." ++ enc ++ "." ++ s.signature)
            s.alg s.jwkPem
        · have heq : verifyJwsSigs co enc (s :: rest) = verifyJwsSigs co enc rest := by
            simp only [verifyJwsSigs]
            rw [if_neg ha, if_neg hc, if_pos hv]
          rw [heq]
          obtain ⟨i1, i2, i3⟩ := ih hrest
          exact ⟨i1, i2, fun hall => i3 fun u hu => hall u (List.mem_cons_of_mem _ hu)⟩
        · have heq : verifyJwsSigs co enc (s :: rest) = .error .manifestVerification := by
            unfold verifyJwsSigs; rw [if_neg ha, if_neg hc, if_neg hv]
          rw [heq]
          exact ⟨by simp, Or.inl rfl, fun _ => rfl⟩

/-- Claim C9, counterexample: a JWS whose first signature carries a cert
chain and whose second declares `alg = "none"` is rejected with an
`Internal` error (the chain is hit first), not with a
`ManifestVerification` error as the claim states. -/
theorem verifyJws_chain_shadows_none :
    (∃ s ∈ jwsChainThenNone.signatures, s.alg = "none") ∧
      verifyJws coTrue jwsChainThenNone = .error .internal ∧
      verifyJws coTrue jwsChainThenNone ≠ .error .manifestVerification := by
  refine ⟨by decide, rfl, ?_⟩
  intro h
  rw [show verifyJws coTrue jwsChainThenNone = .error .internal from rfl] at h
  simp at h

/-- Claim C9 (amended): a JWS containing a signature with
`alg = "none"` is always rejected — verification never succeeds — and
the error is `ManifestVerification` or `Internal`; when no signature
carries a cert chain the error is `ManifestVerification` (the
`Internal` case arises only when a signature with a chain is rejected
first). -/
theorem verifyJws_alg_none_rejected (co : CryptoOps) (jws : Jws)
    (h : ∃ s ∈ jws.signatures, s.alg = "none") :
    verifyJws co jws ≠ .ok () ∧
      (verifyJws co jws = .error .manifestVerification ∨
        verifyJws co jws = .error .internal) ∧
      ((∀ s ∈ jws.signatures, s.chain = none) →
        verifyJws co jws = .error .manifestVerification) := by
  rw [verifyJws]
  exact verifyJwsSigs_alg_none co (base64urlEncode jws.payload) jws.signatures h

theorem verifyJws_alg_none_rejected_witness :
    (∃ s ∈ jwsNoneFirst.signatures, s.alg = "none") ∧
      verifyJws coTrue jwsNoneFirst ≠ .ok () ∧
      (verifyJws coTrue jwsNoneFirst = .error .manifestVerification ∨
        verifyJws coTrue jwsNoneFirst = .error .internal) ∧
      ((∀ s ∈ jwsNoneFirst.signatures, s.chain = none) →
        verifyJws coTrue jwsNoneFirst = .error .manifestVerification) :=
  ⟨by decide, verifyJws_alg_none_rejected coTrue jwsNoneFirst (by decide)⟩

/-- Claim C6: at end of a blob stream, with `cLen` the number parsed
from the final response's `Content-Length` header, a byte-count
mismatch yields the `Download` error; otherwise, when a hasher was
created from the first response's `Docker-Content-Digest` header (the
`some dcdInfo` produced by the stream set-up), a final-hex mismatch
yields the `BadDigest` error. -/
theorem blobStreamEndCheck_spec (co : CryptoOps) (digest : String)
    (ress : List BlobResponse) (dcdOpt : Option DcdInfo) (last : BlobResponse)
    (received : Bytes)
    (_hsetup : createBlobReadStreamSetup co digest ress = .ok dcdOpt)
    (_hlast : ress.getLast? = some last) :
    (blobStreamEndCheck co last.contentLength dcdOpt received = some .download ↔
        ∃ n, jsNumber last.contentLength = some n ∧ (received.length : Int) ≠ n) ∧
      (blobStreamEndCheck co last.contentLength dcdOpt received = some .badDigest ↔
        (∀ n, jsNumber last.contentLength = some n → (received.length : Int) = n) ∧
          ∃ info, dcdOpt = some info ∧
            info.expectedDigest ≠ co.hashHex info.algorithm received) := by
  clear _hsetup _hlast
  unfold blobStreamEndCheck
  cases hcl : jsNumber last.contentLength with
  | some n =>
    simp only []
    by_cases hlen : (received.length : Int) = n
    · rw [if_neg (by simpa using hlen)]
      cases hdcd : dcdOpt with
      | some info =>
        simp only []
        by_cases hmis : info.expectedDigest = co.hashHex info.algorithm received
        · rw [if_neg (by simpa using hmis)]
          constructor
          · constructor
            · intro hfalse; cases hfalse
            · rintro ⟨n₁, hn₁, hne₁⟩
              cases hn₁; exact absurd hlen hne₁
          · constructor
            · intro hfalse; cases hfalse
            · rintro ⟨_, info₁, hinfo₁, hne₁⟩
              cases hinfo₁; exact absurd hmis hne₁
        · rw [if_pos (by simpa using hmis)]
          constructor
          · constructor
            · intro hfalse; cases hfalse
            · rintro ⟨n₁, hn₁, hne₁⟩
              cases hn₁; exact absurd hlen hne₁
          · constructor
            · intro _
              exact ⟨(fun n₁ hn₁ => by cases hn₁; exact hlen),
                info, rfl, hmis⟩
            · intro _; rfl
      | none =>
        simp only []
        constructor
        · constructor
          · intro hfalse; cases hfalse
          · rintro ⟨n₁, hn₁, hne₁⟩
            cases hn₁; exact absurd hlen hne₁
        · constructor
          · intro hfalse; cases hfalse
          · rintro ⟨_, info₁, hinfo₁, _⟩; cases hinfo₁
    · rw [if_pos (by simpa using hlen)]
      constructor
      · constructor
        · intro _; exact ⟨n, rfl, hlen⟩
        · intro _; rfl
      · constructor
        · intro hfalse; cases hfalse
        · rintro ⟨hall, _⟩
          exact absurd (hall n rfl) hlen
  | none =>
    simp only []
    cases hdcd : dcdOpt with
    | some info =>
      simp only []
      by_cases hmis : info.expectedDigest = co.hashHex info.algorithm received
      · rw [if_neg (by simpa using hmis)]
        constructor
        · constructor
          · intro hfalse; cases hfalse
          · rintro ⟨n₁, hn₁, _⟩; cases hn₁
        · constructor
          · intro hfalse; cases hfalse
          · rintro ⟨_, info₁, hinfo₁, hne₁⟩
            cases hinfo₁; exact absurd hmis hne₁
      · rw [if_pos (by simpa using hmis)]
        constructor
        · constructor
          · intro hfalse; cases hfalse
          · rintro ⟨n₁, hn₁, _⟩; cases hn₁
        · constructor
          · intro _
            exact ⟨(fun n₁ hn₁ => by cases hn₁), info, rfl, hmis⟩
          · intro _; rfl
    | none =>
      simp only []
      constructor
      · constructor
        · intro hfalse; cases hfalse
        · rintro ⟨n₁, hn₁, _⟩; cases hn₁
      · constructor
        · intro hfalse; cases hfalse
        · rintro ⟨_, info₁, hinfo₁, _⟩; cases hinfo₁

theorem blobStreamEndCheck_spec_witness :
    createBlobReadStreamSetup coTrue "sha256:aa" ress1
        = .ok (some ⟨"sha256:aa", "sha256", "aa"⟩) ∧
      ress1.getLast? = some ⟨200, "", "", some "sha256:aa", some "3"⟩ ∧
      blobStreamEndCheck coTrue (some "3") (some ⟨"sha256:aa", "sha256", "aa"⟩) [1, 2]
        = some .download :=
  ⟨rfl, rfl,
    ((blobStreamEndCheck_spec coTrue "sha256:aa" ress1
        (some ⟨"sha256:aa", "sha256", "aa"⟩) ⟨200, "", "", some "sha256:aa", some "3"⟩
        [1, 2] rfl rfl).1).mpr ⟨3, by decide, by decide⟩⟩

/-- Claim C3: whenever `_jwsFromManifest` accepts a manifest and raw
body, the reconstructed payload is byte-for-byte
`body.slice(0, formatLength) ++ base64url.decode(formatTail)` with
`formatLength`/`formatTail` taken from the first signature's protected
header (all signatures agree on them by Claim C4); for the ordinary
non-negative `formatLength` the slice is exactly the first
`formatLength` bytes of the raw body — no JSON re-serialization is
involved anywhere in the definition. -/
theorem jwsFromManifest_payload_splice (co : CryptoOps) (m : ManifestV1) (body : Bytes)
    (jws : Jws) (sig0 : ManifestSignature) (rest : List ManifestSignature)
    (hsigs : m.signatures = sig0 :: rest)
    (h : jwsFromManifest co m body = .ok jws) :
    ∃ ph fl t, sig0.protectedParsed = some ph ∧ ph.formatLength = some fl ∧
      ph.formatTail = some t ∧
      jws.payload = jsSliceTo body (some fl) ++ base64urlDecode t ∧
      (0 ≤ fl → jws.payload = body.take fl.toNat ++ base64urlDecode t) := by
  obtain ⟨fl, tl, hmem, hpay⟩ := jwsFromManifest_ok_spec co m body jws h
  obtain ⟨hFL, hTL⟩ := hmem sig0 (by rw [hsigs]; exact List.mem_cons_self _ _)
  cases hpp : sig0.protectedParsed with
  | none => rw [sigFL, hpp] at hFL; simp at hFL
  | some ph =>
    rw [sigFL, hpp] at hFL
    rw [sigTL, hpp] at hTL
    simp at hFL hTL
    obtain ⟨t, ht, htd⟩ := hTL
    refine ⟨ph, fl, t, rfl, hFL, ht, by rw [hpay, htd], fun hfl => ?_⟩
    rw [hpay, htd, jsSliceTo]
    rw [if_neg (by omega)]

theorem jwsFromManifest_payload_splice_witness :
    jwsFromManifest coTrue mC bodyC = .ok jwsC ∧
      ∃ ph fl t, sigC.protectedParsed = some ph ∧ ph.formatLength = some fl ∧
        ph.formatTail = some t ∧
        jwsC.payload = jsSliceTo bodyC (some fl) ++ base64urlDecode t ∧
        (0 ≤ fl → jwsC.payload = bodyC.take fl.toNat ++ base64urlDecode t) :=
  ⟨rfl, jwsFromManifest_payload_splice coTrue mC bodyC jwsC sigC [] rfl rfl⟩

/-- Claim C4: on a manifest with two or more signatures, the JWS
extractor fails with `InvalidContent` unless every signature carries a
`formatLength` and a `formatTail` and all of them agree on the
`formatLength` value and on the decoded `formatTail` bytes; it also
fails with `InvalidContent` whenever some signature's parsed protected
header misses `formatLength` (or holds a non-numeric value, the
`isNaN` case). -/
theorem jwsFromManifest_consistency (co : CryptoOps) (m : ManifestV1) (body : Bytes)
    (h2 : 2 ≤ m.signatures.length) :
    (¬ carriesConsistent m.signatures →
      jwsFromManifest co m body = .error .invalidContent) ∧
      ∀ s ∈ m.signatures, ∀ ph, s.protectedParsed = some ph → ph.formatLength = none →
        jwsFromManifest co m body = .error .invalidContent := by
  have hne : m.signatures ≠ [] := by
    intro hnil; rw [hnil] at h2; simp at h2
  constructor
  · intro hnc
    cases hres : jwsFromManifest co m body with
    | ok jws =>
      exfalso
      obtain ⟨fl, tl, hmem, _⟩ := jwsFromManifest_ok_spec co m body jws hres
      refine hnc fun s hs => ⟨by rw [(hmem s hs).1]; rfl, by rw [(hmem s hs).2]; rfl,
        fun t ht => ⟨?_, ?_⟩⟩
      · rw [(hmem s hs).1, (hmem t ht).1]
      · rw [(hmem s hs).2, (hmem t ht).2]
    | error e =>
      have hek := jwsFromManifest_error_kind co m body e hne hres
      rw [hek]
  · intro s hs ph hph hfl
    cases hres : jwsFromManifest co m body with
    | ok jws =>
      exfalso
      obtain ⟨fl, tl, hmem, _⟩ := jwsFromManifest_ok_spec co m body jws hres
      have hFL := (hmem s hs).1
      rw [sigFL, hph] at hFL
      simp at hFL
      rw [hfl] at hFL
      cases hFL
    | error e =>
      have hek := jwsFromManifest_error_kind co m body e hne hres
      rw [hek]

theorem jwsFromManifest_consistency_witness :
    2 ≤ mC4.signatures.length ∧ ¬ carriesConsistent mC4.signatures ∧
      jwsFromManifest coTrue mC4 [0, 1, 2, 3] = .error .invalidContent :=
  ⟨by decide, by decide,
    (jwsFromManifest_consistency coTrue mC4 [0, 1, 2, 3] (by decide)).1 (by decide)⟩

/-- Claim C2: every manifest `M` that `getManifest` passes to its
callback without error is the received manifest and satisfies
`M.schemaVersion = 1`, `M.fsLayers.length = M.history.length ≥ 1`, and
the reconstructed JWS passed both the digest check and `_verifyJws`,
i.e. every signature verified (with `jws.verify`) against the PEM of
its embedded JWK; any violation surfaces as an error (or as an
uncaught `throw`), never together with a manifest. -/
theorem getManifest_ok_invariants (co : CryptoOps) (m : ManifestV1) (body : Bytes)
    (dcd : Option String) (M : ManifestV1)
    (h : getManifestValidate co m body dcd = .ok M) :
    M = m ∧ M.schemaVersion = 1 ∧ M.fsLayers.length = M.history.length ∧
      1 ≤ M.fsLayers.length ∧
      ∃ jws, jwsFromManifest co m body = .ok jws ∧
        verifyManifestDcd co dcd jws = .ok () ∧
        ∀ s ∈ jws.signatures, s.alg ≠ "none" ∧ s.chain = none ∧
          co.jwsVerify (s.protectedRaw ++ "." ++ base64urlEncode jws.payload ++ "."
            ++ s.signature) s.alg s.jwkPem = true := by
  unfold getManifestValidate at h
  cases hjws : jwsFromManifest co m body with
  | error e => rw [hjws] at h; simp at h
  | ok jws =>
    rw [hjws] at h; simp only [] at h
    cases hdcd : verifyManifestDcd co dcd jws with
    | error e => rw [hdcd] at h; simp at h
    | ok u =>
      cases u
      rw [hdcd] at h; simp only [] at h
      cases hver : verifyJws co jws with
      | error e => rw [hver] at h; simp at h
      | ok u2 =>
        cases u2
        rw [hver] at h; simp only [] at h
        by_cases h1 : m.schemaVersion ≠ 1
        · rw [if_pos h1] at h; simp at h
        · rw [if_neg h1] at h
          by_cases hlen : m.fsLayers.length ≠ m.history.length
          · rw [if_pos hlen] at h; simp at h
          · rw [if_neg hlen] at h
            by_cases h0 : m.fsLayers.length = 0
            · rw [if_pos h0] at h; simp at h
            · rw [if_neg h0] at h
              injection h with hM
              subst hM
              rw [verifyJws] at hver
              refine ⟨rfl, by omega, by omega, by omega, jws, rfl, hdcd, ?_⟩
              exact verifyJwsSigs_ok_spec co (base64urlEncode jws.payload)
                jws.signatures hver

theorem getManifest_ok_invariants_witness :
    getManifestValidate coTrue mC bodyC (some "sha256:aa") = .ok mC ∧
      (mC = mC ∧ mC.schemaVersion = 1 ∧
        mC.fsLayers.length = mC.history.length ∧ 1 ≤ mC.fsLayers.length ∧
        ∃ jws, jwsFromManifest coTrue mC bodyC = .ok jws ∧
          verifyManifestDcd coTrue (some "sha256:aa") jws = .ok () ∧
          ∀ s ∈ jws.signatures, s.alg ≠ "none" ∧ s.chain = none ∧
            coTrue.jwsVerify (s.protectedRaw ++ "." ++ base64urlEncode jws.payload
              ++ "." ++ s.signature) s.alg s.jwkPem = true) :=
  ⟨rfl, getManifest_ok_invariants coTrue mC bodyC (some "sha256:aa") mC rfl⟩

/-- Sanity check: `base64url.decode('Cn0') == '\n}'`, the example from
the source's design comment. -/
example : base64urlDecode "Cn0" = [10, 125] := by decide

example : base64urlEncode [10, 125] = "Cn0" := by decide

example : base64StdEncode (utf8Bytes "user:pass") = "dXNlcjpwYXNz" := by decide

end RegistryClientV2
